import Mathlib

/-!
Verification of the entity-resolution and review core of the PYP ETL pipeline.

The definitions in this file are a shallow embedding of the Python source:

* `app/etl.py`   — penalty scorer (`apply_match_penalties`), text normalizer
  (`normalize_offering_text`), security sanitizer (`sanitize_string`), and the
  per-item matching/decision logic of `handle` inside `_process_rows_generator`.
* `app/routes.py` — the review state machine (`handle_review`,
  `ignore_review_item`, `batch_save_decisions`, `batch_approve_high_confidence`)
  and the semantic guard (`is_semantically_valid_match`).

Scores are modelled as rationals (Python floats carry exact decimals here),
Python `None` as `Option`, and operations that can raise (`ZeroDivisionError`,
`KeyError`) return `Option` with `none` for the raising case.  The rapidfuzz
retrieval scores (`process.extract`, `fuzz.token_set_ratio`, `fuzz.ratio`,
partial-ratio) are external inputs to the decision logic and are passed in as
parameters; everything downstream of them is modelled from the source.
-/

namespace PYP

/-! ### Python string primitives (ASCII scope) -/

/-- Characters Python `str.strip()` / `\s` treat as whitespace (ASCII range). -/
def pyIsSpace (c : Char) : Bool :=
  c = ' ' || c = '\t' || c = '\n' || c = '\x0d' || c = '\x0b' || c = '\x0c'

/-- ASCII lowercasing of one character, as Python `str.lower` acts on ASCII. -/
def lowerChar (c : Char) : Char :=
  if 'A' ≤ c ∧ c ≤ 'Z' then Char.ofNat (c.toNat + 32) else c

/-- ASCII uppercasing of one character. -/
def upperChar (c : Char) : Char :=
  if 'a' ≤ c ∧ c ≤ 'z' then Char.ofNat (c.toNat - 32) else c

/-- Python `str.lower()`. -/
def pyLower (s : String) : String := ⟨s.data.map lowerChar⟩

/-- Python `str.strip()`: drop leading and trailing whitespace. -/
def pyStrip (s : String) : String :=
  ⟨((s.data.dropWhile pyIsSpace).reverse.dropWhile pyIsSpace).reverse⟩

/-- Helper for `pySplit`: accumulate the current word while scanning. -/
def pySplitAux : List Char → List Char → List (List Char)
  | acc, [] => if acc.isEmpty then [] else [acc.reverse]
  | acc, c :: cs =>
      if pyIsSpace c then
        (if acc.isEmpty then pySplitAux [] cs else acc.reverse :: pySplitAux [] cs)
      else pySplitAux (c :: acc) cs

/-- Python `str.split()` with no argument: split on whitespace runs, no empties. -/
def pySplit (s : String) : List (List Char) := pySplitAux [] s.data

/-- Helper: does `needle` occur as a prefix of some suffix of `hay`? -/
def containsSubAux (needle : List Char) : List Char → Bool
  | [] => needle.isEmpty
  | c :: cs => needle.isPrefixOf (c :: cs) || containsSubAux needle cs

/-- Python `needle in hay` substring test on strings. -/
def containsSubstr (hay needle : String) : Bool :=
  containsSubAux needle.data hay.data

/-- Python `abs` on rationals, written as the source computes it. -/
def pyAbs (x : ℚ) : ℚ := if x < 0 then -x else x

/-! ### Penalty scorer — `apply_match_penalties` (`app/etl.py` lines 713-755)

The multipliers are module-level tunables in the source
(`os.getenv` with the defaults below); we embed the default values. -/

def LENGTH_PENALTY_MULTIPLIER : ℚ := 30
def WORD_COUNT_PENALTY_MULTIPLIER : ℚ := 10
def DIETARY_TERMS_PENALTY : ℚ := 20
def SPECIAL_CHARS_PENALTY : ℚ := 15
def NUMBERS_PENALTY : ℚ := 15
def ALGORITHM_DISAGREEMENT_PENALTY : ℚ := 15
def ALGORITHM_DISAGREEMENT_THRESHOLD : ℚ := 20
def FUZZY_MATCH_THRESHOLD : ℚ := 85
def AUTO_RESOLVE_THRESHOLD : ℚ := 97
def AUTO_REJECT_THRESHOLD : ℚ := 50

def dietary_terms : List String :=
  ["gluten-free", "organic", "natural", "raw", "extra virgin", "whole grain"]

def special_char_set : List Char :=
  ['!', '@', '#', '$', '%', '^', '&', '*', '(', ')']

/-- `apply_match_penalties(text_sanitized, match_name, raw_score)`.
Returns `none` exactly when Python raises `ZeroDivisionError`, i.e. when both
strings are empty so that `max(len(query), len(candidate)) == 0`. -/
def apply_match_penalties (text_sanitized match_name : String) (raw_score : ℚ) : Option ℚ :=
  let l1 := text_sanitized.length
  let l2 := match_name.length
  if max l1 l2 = 0 then none
  else
    let length_penalty : ℚ :=
      pyAbs ((l1 : ℚ) - (l2 : ℚ)) / ((max l1 l2 : ℕ) : ℚ) * LENGTH_PENALTY_MULTIPLIER
    let s1 := raw_score - length_penalty
    let wc1 := (pySplit text_sanitized).length
    let wc2 := (pySplit match_name).length
    let word_penalty : ℚ :=
      min (pyAbs ((wc1 : ℚ) - (wc2 : ℚ)) * WORD_COUNT_PENALTY_MULTIPLIER) 25
    let s2 := s1 - word_penalty
    let text_has_dietary := dietary_terms.any (fun t => containsSubstr (pyLower text_sanitized) t)
    let match_has_dietary := dietary_terms.any (fun t => containsSubstr (pyLower match_name) t)
    let s3 := if text_has_dietary ≠ match_has_dietary then s2 - DIETARY_TERMS_PENALTY else s2
    let spec1 := (text_sanitized.data.filter (fun c => special_char_set.contains c)).length
    let spec2 := (match_name.data.filter (fun c => special_char_set.contains c)).length
    let s4 := if spec1 ≠ spec2 then s3 - SPECIAL_CHARS_PENALTY else s3
    let num1 := text_sanitized.data.any Char.isDigit
    let num2 := match_name.data.any Char.isDigit
    let s5 := if num1 ≠ num2 then s4 - NUMBERS_PENALTY else s4
    some (max 0 s5)

/-- The extra cross-algorithm step applied only to the raw-best candidate
(`app/etl.py` lines 1291-1294): subtract the disagreement penalty when the
token-set score differs from the ratio or the partial-ratio score by more
than the disagreement threshold. -/
def disagreement_adjust (raw_score ratio_score substr_score adjusted : ℚ) : ℚ :=
  if max (pyAbs (raw_score - ratio_score)) (pyAbs (raw_score - substr_score)) >
      ALGORITHM_DISAGREEMENT_THRESHOLD
  then adjusted - ALGORITHM_DISAGREEMENT_PENALTY else adjusted

/-- Full penalised score of the top candidate: penalties, then the
disagreement penalty, then the final clamp at 0 (`app/etl.py` lines 1289-1303).
`substr_score` is the partial-ratio auxiliary score of the source. -/
def top_candidate_score (q c : String) (raw_score ratio_score substr_score : ℚ) : Option ℚ :=
  (apply_match_penalties q c raw_score).map
    (fun adj => max 0 (disagreement_adjust raw_score ratio_score substr_score adj))

/-! ### Decision classifier (`app/etl.py` lines 1327-1374, branch conditions) -/

inductive Decision where
  | autoResolved
  | suggestedForReview
  | autoRejected
deriving Repr, DecidableEq

/-- The three-way routing of a penalised score by the two thresholds, exactly
the `if final_score >= auto_resolve_threshold / elif final_score >=
auto_reject_threshold / else` chain of the source. -/
def classify_score (s auto_resolve_threshold auto_reject_threshold : ℚ) : Decision :=
  if s ≥ auto_resolve_threshold then .autoResolved
  else if s ≥ auto_reject_threshold then .suggestedForReview
  else .autoRejected

/-! ### Text normalizer — `normalize_offering_text` (`app/etl.py` lines 767-883)

The variant table of the source is a dict of regexes applied with `re.sub`
and `re.IGNORECASE`.  Each pattern there is a word-bounded sequence of
literal runs, `\s+` / `\s*` gaps, and an optional trailing `s?`; we embed
exactly that shape.  `re.sub` finds the leftmost, non-overlapping occurrences of
the current pattern (boundaries judged on the text being scanned) and splices
in the replacement. -/

/-- Python regex `\w` on ASCII: letters, digits, underscore. -/
def isWordChar (c : Char) : Bool := c.isAlphanum || c = '_'

inductive PatElem where
  /-- a run of literal characters, matched case-insensitively -/
  | lit (cs : List Char)
  /-- `\s+` -/
  | sp1
  /-- `\s*` -/
  | sp0
  /-- a trailing optional `s?` -/
  | optS
deriving Repr

/-- Consume `lit` case-insensitively from the front of the text. -/
def stripLitCI : List Char → List Char → Option (List Char)
  | [], t => some t
  | _ :: _, [] => none
  | p :: ps, c :: cs => if lowerChar c = lowerChar p then stripLitCI ps cs else none

/-- Rests after consuming 1..k whitespace characters, greedy (longest) first. -/
def spRests : List Char → List (List Char)
  | [] => []
  | c :: cs => if pyIsSpace c then spRests cs ++ [cs] else []

/-- All possible rests of the text after matching the element list, in the
backtracking order of the regex engine (greedy alternatives first). -/
def matchElems : List PatElem → List Char → List (List Char)
  | [], t => [t]
  | .lit cs :: es, t =>
      match stripLitCI cs t with
      | some rest => matchElems es rest
      | none => []
  | .sp1 :: es, t => (spRests t).flatMap (fun r => matchElems es r)
  | .sp0 :: es, t => ((spRests t) ++ [t]).flatMap (fun r => matchElems es r)
  | .optS :: es, t =>
      match t with
      | c :: cs => if lowerChar c = 's' then matchElems es cs ++ matchElems es t else matchElems es t
      | [] => matchElems es t

/-- The closing `\b` of a pattern: the next character (if any) is non-word.
Every pattern ends in a word character, so only the right side is checked. -/
def endBoundary : List Char → Bool
  | [] => true
  | c :: _ => ¬ isWordChar c

structure VariantRule where
  elems : List PatElem
  repl : String

/-- One `re.sub(pattern, repl, text, flags=IGNORECASE)` pass: scan left to
right, at each word boundary try the pattern (greedy first), splice the
replacement and continue after the matched portion.  `prev` is the character
of the scanned text just before the current position (for `\b`); fuel bounds
the recursion and is chosen large enough to never run out. -/
def scanSub (rule : VariantRule) : Nat → Option Char → List Char → List Char
  | 0, _, t => t
  | _ + 1, _, [] => []
  | fuel + 1, prev, c :: cs =>
      let startOk := match prev with
        | none => true
        | some p => ¬ isWordChar p
      let rests := if startOk then matchElems rule.elems (c :: cs) else []
      match rests.find? endBoundary with
      | some rest =>
          let consumed := (c :: cs).length - rest.length
          let lastC := (c :: cs).get? (consumed - 1)
          rule.repl.data ++ scanSub rule fuel lastC rest
      | none => c :: scanSub rule fuel (some c) cs

/-- Shorthand for building a rule from pattern elements. -/
def vr (elems : List PatElem) (repl : String) : VariantRule := ⟨elems, repl⟩

/-- The `variant_mappings` table, in source (dict insertion) order. -/
def variant_mappings : List VariantRule :=
  [ vr [.lit "vit".data, .sp1, .lit "c".data] "Vitamin C",
    vr [.lit "vit".data, .sp1, .lit "d".data] "Vitamin D",
    vr [.lit "vit".data, .sp1, .lit "b".data] "Vitamin B",
    vr [.lit "vit".data, .sp1, .lit "e".data] "Vitamin E",
    vr [.lit "vit".data, .sp1, .lit "a".data] "Vitamin A",
    vr [.lit "vit".data, .sp1, .lit "k".data] "Vitamin K",
    vr [.lit "probiotic".data, .optS] "Probiotics",
    vr [.lit "prebiotic".data, .optS] "Prebiotics",
    vr [.lit "omega".data, .sp0, .lit "3".data] "Omega-3",
    vr [.lit "omega".data, .sp0, .lit "6".data] "Omega-6",
    vr [.lit "omega".data, .sp0, .lit "9".data] "Omega-9",
    vr [.lit "coq10".data] "CoQ10",
    vr [.lit "co".data, .sp0, .lit "q".data, .sp0, .lit "10".data] "CoQ10",
    vr [.lit "b.".data, .sp0, .lit "adolescentis".data] "Bifidobacterium adolescentis",
    vr [.lit "b.".data, .sp0, .lit "lactis".data] "Bifidobacterium lactis",
    vr [.lit "b.".data, .sp0, .lit "bifidum".data] "Bifidobacterium bifidum",
    vr [.lit "l.".data, .sp0, .lit "acidophilus".data] "Lactobacillus acidophilus",
    vr [.lit "l.".data, .sp0, .lit "rhamnosus".data] "Lactobacillus rhamnosus",
    vr [.lit "l.".data, .sp0, .lit "casei".data] "Lactobacillus casei",
    vr [.lit "s.".data, .sp0, .lit "boulardii".data] "Saccharomyces boulardii",
    vr [.lit "s.".data, .sp0, .lit "cerevisiae".data] "Saccharomyces cerevisiae",
    vr [.lit "stevia".data] "Stevia",
    vr [.lit "monk".data, .sp0, .lit "fruit".data] "Monk Fruit",
    vr [.lit "monkfruit".data] "Monk Fruit",
    vr [.lit "chicory".data, .sp0, .lit "root".data] "Chicory Root",
    vr [.lit "inulin".data] "Inulin",
    vr [.lit "pectin".data] "Pectin",
    vr [.lit "guar".data, .sp0, .lit "gum".data] "Guar Gum",
    vr [.lit "xanthan".data, .sp0, .lit "gum".data] "Xanthan Gum",
    vr [.lit "carrageenan".data] "Carrageenan",
    vr [.lit "agar".data] "Agar",
    vr [.lit "gelatin".data] "Gelatin",
    vr [.lit "gelatine".data] "Gelatin" ]

/-- Apply every variant rule, one `re.sub` pass each, in table order. -/
def applyVariants (t : List Char) : List Char :=
  variant_mappings.foldl (fun txt r => scanSub r (txt.length + 1) none txt) t

/-- Helper for whitespace collapapse: `re.sub(r'\s+', ' ', text)`.  The flag
records whether the previous character was part of a whitespace run. -/
def collapseWsAux : Bool → List Char → List Char
  | _, [] => []
  | prevSpace, c :: cs =>
      if pyIsSpace c then
        (if prevSpace then collapseWsAux true cs else ' ' :: collapseWsAux true cs)
      else c :: collapseWsAux false cs

/-- `re.sub(r'\s+', ' ', text)`. -/
def collapseWs (s : String) : String := ⟨collapseWsAux false s.data⟩

/-- The punctuation removed by step 4, `re.sub(r'[,\;\!\?\'\""\[\]{}]', '', text)`. -/
def noise_punct : List Char :=
  [',', ';', '!', '?', '\'', '\"', '[', ']', Char.ofNat 123, Char.ofNat 125]

def removePunct (t : List Char) : List Char :=
  t.filter (fun c => ¬ noise_punct.contains c)

/-- Python `str.capitalize()`: first character uppercased, the rest lowercased. -/
def capitalizeL : List Char → List Char
  | [] => []
  | c :: cs => upperChar c :: cs.map lowerChar

/-- Python `word.split(sep)` keeping empty segments. -/
def splitOnCharAux (sep : Char) : List Char → List Char → List (List Char)
  | acc, [] => [acc.reverse]
  | acc, c :: cs =>
      if c = sep then acc.reverse :: splitOnCharAux sep [] cs
      else splitOnCharAux sep (c :: acc) cs

def splitOnChar (sep : Char) (t : List Char) : List (List Char) := splitOnCharAux sep [] t

/-- The lowercase words kept lowercase by step 5 unless first. -/
def small_words : List String :=
  ["and", "or", "of", "the", "in", "on", "at", "to", "for", "with", "by"]

/-- Join parts with a separator character. -/
def joinSep (sep : Char) (parts : List (List Char)) : List Char :=
  List.intercalate [sep] parts

/-- Step 5 treatment of one word (`isFirst` = no word emitted yet). -/
def normalizeWord (isFirst : Bool) (w : List Char) : List Char :=
  if small_words.contains ⟨w.map lowerChar⟩ then
    (if isFirst then capitalizeL w else w.map lowerChar)
  else if w.contains '-' then
    joinSep '-' (((splitOnChar '-' w).filter (fun p => ¬ p.isEmpty)).map capitalizeL)
  else if w.contains '.' ∧ w.length > 1 then
    joinSep '.' (((splitOnChar '.' w).filter (fun p => ¬ p.isEmpty)).map capitalizeL)
  else capitalizeL w

/-- Step 5 over the word list; the first word is marked. -/
def normalizeWords : Bool → List (List Char) → List (List Char)
  | _, [] => []
  | isFirst, w :: ws => normalizeWord isFirst w :: normalizeWords false ws

/-- `normalize_offering_text(text)` (`app/etl.py` lines 767-883), on strings.
(The source returns non-string input unchanged; the embedding is typed.) -/
def normalize_offering_text (text : String) : String :=
  if text = "" then text
  else
    let t1 := pyStrip text
    if t1 = "" then t1
    else
      let t2 := collapseWs t1
      let t3 := applyVariants t2.data
      let t4 := removePunct t3
      let words := pySplitAux [] t4
      let result : String := ⟨joinSep ' ' (normalizeWords true words)⟩
      pyStrip (collapseWs result)

/-! ### Security sanitizer — `sanitize_string` (`app/etl.py` lines 757-765) -/

/-- One `re.sub(r'<[^>]+>', '', value)` pass, with fuel for termination. -/
def removeTagsAux : Nat → List Char → List Char
  | 0, t => t
  | _ + 1, [] => []
  | fuel + 1, c :: cs =>
      if c = '<' then
        let body := cs.takeWhile (fun d => d ≠ '>')
        let rest := cs.drop body.length
        match rest with
        | d :: rest2 =>
            if d = '>' ∧ body.length ≥ 1 then removeTagsAux fuel rest2
            else c :: removeTagsAux fuel cs
        | [] => c :: removeTagsAux fuel cs
      else c :: removeTagsAux fuel cs

def removeTags (t : List Char) : List Char := removeTagsAux (t.length + 1) t

/-- `html.escape(value)` with default `quote=True`, one character at a time. -/
def escapeChar (c : Char) : List Char :=
  if c = '&' then "&amp;".data
  else if c = '<' then "&lt;".data
  else if c = '>' then "&gt;".data
  else if c = '\"' then "&quot;".data
  else if c = '\'' then "&#x27;".data
  else [c]

/-- `sanitize_string(value)`: strip, drop HTML tags, HTML-escape.  Empty
input is returned unchanged (Python falsiness check). -/
def sanitize_string (value : String) : String :=
  if value = "" then value
  else ⟨(removeTags (pyStrip value).data).flatMap escapeChar⟩

/-! ### Per-item matching and decisioning — `handle` in `_process_rows_generator`
(`app/etl.py` lines 1204-1376)

The canonical pool is the association list `pool : List (String × String)` of
`(title, external id)` pairs; in the source `ext_map` is this dict,
`pool = list(ext_map.keys())` and `lower_map = {t.lower(): ext}`.  Python dict
construction lets a later duplicate key overwrite an earlier one, so lookups
take the last matching pair.  The list returned by `process.extract` (name,
raw token-set score) and the per-name auxiliary `fuzz.ratio` /
partial-ratio scores of the query are parameters. -/

/-- Python `dict` lookup for a dict built from an association list in order:
the last binding of the key wins. -/
def dictGet (m : List (String × String)) (k : String) : Option String :=
  ((m.filter (fun p => p.1 == k)).getLast?).map Prod.snd

/-- `lower_map.get(key)` where `lower_map = {title.lower(): ext_id}`. -/
def lowerLookup (pool : List (String × String)) (k : String) : Option String :=
  ((pool.filter (fun p => pyLower p.1 == k)).getLast?).map Prod.snd

/-- One ranked alternative stored on a review (`{"name", "score", "ext_id"}`). -/
structure Alt where
  name : String
  score : ℚ
  ext_id : Option String
deriving Repr, DecidableEq

/-- The `MatchReview` row created for an item, with Python `None` as `none`
(`approved = none` is the pending state). -/
structure ReviewData where
  suggested_name : String
  suggested_ext_id : Option String
  score : ℚ
  alternatives : List Alt
  approved : Option Bool
deriving Repr, DecidableEq

/-- The resolution fields of a `NewItem` after `handle` processed it,
together with the review record it created (if any).  `score` is `none`
until a branch assigns it — the auto-reject branch never does. -/
structure ItemOutcome where
  matched_canonical_id : Option String
  score : Option ℚ
  resolved : Bool
  ignored : Bool
  review : Option ReviewData
deriving Repr, DecidableEq

/-- Penalised score of one extracted match (`app/etl.py` lines 1279-1303):
`apply_match_penalties`, the disagreement penalty when the name equals the
raw-best name, and the final clamp at 0. -/
def score_one_match (q topName : String) (ratioOf substrOf : String → ℚ)
    (nm : String) (raw : ℚ) : Option ℚ :=
  (apply_match_penalties q nm raw).map (fun adj =>
    let adj2 := if nm == topName then disagreement_adjust raw (ratioOf nm) (substrOf nm) adj else adj
    max 0 adj2)

/-- `penalized_matches` built by the loop, `none` if any iteration raises. -/
def penalized_matches_of (q : String) (ratioOf substrOf : String → ℚ)
    (extracted : List (String × ℚ)) : Option (List (String × ℚ)) :=
  match extracted with
  | [] => some []
  | (top, _) :: _ =>
      extracted.mapM (fun p => (score_one_match q top ratioOf substrOf p.1 p.2).map ((p.1, ·)))

/-- The `best_match` / `best_adjusted_score` tracking loop: start from
`(None, 0.0)` and take a candidate only on a strict improvement. -/
def best_track (pm : List (String × ℚ)) : Option String × ℚ :=
  pm.foldl (fun acc p => if p.2 > acc.2 then (some p.1, p.2) else acc) (none, 0)

/-- The alternatives loop of the suggested-for-review branch (`app/etl.py`
lines 1342-1351): skip the best name and sub-threshold scores, stop after the
third collected alternative.  `k` is the current length of `alts`. -/
def collect_alts (extMap : List (String × String)) (name0 : String) (rej : ℚ) :
    List (String × ℚ) → Nat → List Alt
  | [], _ => []
  | (nm, s) :: rest, k =>
      if nm ≠ name0 ∧ rej ≤ s then
        ⟨nm, s, dictGet extMap nm⟩ ::
          (if k + 1 ≥ 3 then [] else collect_alts extMap name0 rej rest (k + 1))
      else collect_alts extMap name0 rej rest k

/-- The fuzzy branch of `handle` (`app/etl.py` lines 1270-1374): penalise all
extracted candidates, pick the best, and route it through the threshold chain.
`none` models an uncaught `KeyError`/`ZeroDivisionError` on that path. -/
def fuzzy_stage (q : String) (ratioOf substrOf : String → ℚ) (extracted : List (String × ℚ))
    (extMap : List (String × String)) (ar rej : ℚ) : Option ItemOutcome :=
  match penalized_matches_of q ratioOf substrOf extracted with
  | none => none
  | some pm =>
      if (best_track pm).2 ≥ ar then
        match (best_track pm).1 with
        | some n =>
            match dictGet extMap n with
            | some e => some ⟨some e, some (best_track pm).2, true, false, none⟩
            | none => none
        | none => none
      else if (best_track pm).2 ≥ rej then
        match (best_track pm).1 with
        | some n =>
            match dictGet extMap n with
            | some e =>
                some ⟨some e, some (best_track pm).2, false, false,
                  some ⟨n, some e, (best_track pm).2, collect_alts extMap n rej pm 0, none⟩⟩
            | none => none
        | none => none
      else
        some ⟨none, none, false, true,
          some ⟨(match (best_track pm).1 with
                 | some n => if n = "" then q else n
                 | none => q),
                (match (best_track pm).1 with
                 | some n => if n = "" then none else dictGet extMap n
                 | none => none),
                (best_track pm).2, [], some false⟩⟩

/-- One item through `handle`: normalize, sanitize, try the case-insensitive
exact match against the pool (a falsy — empty — stored id falls through to
fuzzy, as in the source truthiness test), otherwise run the fuzzy branch. -/
def handle_item (pool : List (String × String)) (ratioOf substrOf : String → ℚ)
    (extracted : List (String × ℚ)) (ar rej : ℚ) (text : String) : Option ItemOutcome :=
  let text_sanitized := sanitize_string (normalize_offering_text text)
  match lowerLookup pool (pyLower text_sanitized) with
  | some e =>
      if e = "" then fuzzy_stage text_sanitized ratioOf substrOf extracted pool ar rej
      else some ⟨some e, some 100, true, false, none⟩
  | none => fuzzy_stage text_sanitized ratioOf substrOf extracted pool ar rej

/-! ### Semantic guard — `is_semantically_valid_match` (`app/routes.py` lines 117-194) -/

/-- The category keyword table, in source (dict insertion) order. -/
def category_keywords : List (String × List String) :=
  [ ("vitamins", ["vitamin", "vitamins", "vit", "ascorbic", "thiamine", "riboflavin",
      "niacin", "b12", "b6", "folate", "biotin", "pantothenic"]),
    ("amino_acids", ["amino", "acid", "protein", "peptide", "glutamine", "arginine",
      "lysine", "methionine", "tryptophan", "tyrosine"]),
    ("minerals", ["calcium", "iron", "zinc", "magnesium", "selenium", "copper",
      "manganese", "chromium", "iodine", "phosphorus"]),
    ("omega", ["omega", "dha", "epa", "fatty", "acid", "fish", "oil", "flax", "linseed"]),
    ("probiotics", ["probiotic", "probiotics", "lactobacillus", "bifidobacterium",
      "acidophilus", "bacteria", "culture"]),
    ("prebiotics", ["prebiotic", "prebiotics", "fiber", "inulin",
      "fructooligosaccharide", "galactooligosaccharide"]),
    ("certifications", ["organic", "certified", "usda", "canada", "european", "bio",
      "eco", "sustainable", "fair trade"]),
    ("additives", ["additive", "additives", "preservative", "stabilizer", "emulsifier",
      "thickener", "colorant"]),
    ("adhesives", ["adhesive", "adhesives", "glue", "bonding", "sealant", "cement",
      "paste"]) ]

/-- The `problematic_patterns` pair list of the source. -/
def problematic_patterns : List (String × String) :=
  [ ("vitamin", "amino"), ("vitamin", "protein"), ("vitamin", "peptide"),
    ("additive", "adhesive"), ("additive", "glue"), ("additive", "bonding"),
    ("probiotic", "prebiotic"), ("bacteria", "fiber"), ("culture", "inulin"),
    ("calcium", "vitamin"), ("iron", "vitamin"), ("zinc", "vitamin") ]

/-- A category vetoes the pair when exactly one side mentions it, except the
source's omega escape hatch.  (The source also has an
`elif category == 'probiotics' and category == 'prebiotics'` arm, which is
always false and therefore not a further exception.) -/
def category_mismatch (ol sl : String) (cat : String) (kws : List String) : Bool :=
  let oh := kws.any (fun k => containsSubstr ol k)
  let sh := kws.any (fun k => containsSubstr sl k)
  (oh ≠ sh) &&
    ¬ (cat == "omega" && (containsSubstr ol "omega" || containsSubstr sl "omega"))

/-- `is_semantically_valid_match(original_name, suggested_name, item_type)`.
`item_type` is accepted and ignored, as in the source.  `none` models the
`ZeroDivisionError` when both names strip to empty while being truthy. -/
def is_semantically_valid_match (original_name suggested_name item_type : String) :
    Option Bool :=
  if original_name = "" ∨ suggested_name = "" then some false
  else
    let ol := pyStrip (pyLower original_name)
    let sl := pyStrip (pyLower suggested_name)
    if category_keywords.any (fun p => category_mismatch ol sl p.1 p.2) then some false
    else if problematic_patterns.any (fun p =>
        (containsSubstr ol p.1 && containsSubstr sl p.2) ||
        (containsSubstr ol p.2 && containsSubstr sl p.1)) then some false
    else
      let lo := ol.length
      let ls := sl.length
      if max lo ls = 0 then none
      else if ((min lo ls : ℕ) : ℚ) / ((max lo ls : ℕ) : ℚ) < 0.5 then some false
      else some true

/-! ### Review state machine (`app/routes.py`)

A `ReviewEntry` bundles one `MatchReview` row with the resolution fields of
its owning `NewItem` (they are one-to-one, `new_item_id` unique).  The
decision field `approved : Option Bool` is `none` while pending. -/

/-- An alternatives slot: either a ranked alternative from the ETL stage or a
`{"ext_id": ..., "selected": true}` entry written by a multi-selection. -/
inductive AltSlot where
  | ranked (a : Alt)
  | chosen (ext_id : String)
deriving Repr, DecidableEq

structure ReviewEntry where
  item_id : Nat
  suggested_name : String
  suggested_ext_id : Option String
  rev_score : ℚ
  alternatives : List AltSlot
  approved : Option Bool
  item_name : String
  item_type : String
  resolved : Bool
  ignored : Bool
  matched_canonical_id : Option String
deriving Repr, DecidableEq

/-- What a route handler reports back. -/
inductive RouteResponse where
  | ok
  | notFoundOrHandled
deriving Repr, DecidableEq

/-- `MatchReview.query.filter_by(new_item_id=item_id, approved=None).first()`. -/
def find_pending_idx (db : List ReviewEntry) (id : Nat) : Option Nat :=
  db.findIdx? (fun e => e.item_id == id && e.approved == none)

/-- The POST form of `handle_review`: the `canonical_choices` list and the
optional `choice` field. -/
structure ReviewForm where
  canonical_choices : List String
  single_choice : Option String
deriving Repr, DecidableEq

/-- The decision body of `handle_review` (`app/routes.py` lines 690-730),
applied to the found pending entry. -/
def apply_decision (form : ReviewForm) (e : ReviewEntry) : ReviewEntry :=
  match form.canonical_choices with
  | c :: cs =>
      { e with approved := some true, resolved := true, matched_canonical_id := some c,
               alternatives := (c :: cs).map AltSlot.chosen }
  | [] =>
      match form.single_choice with
      | some s =>
          if s = "__new__" then { e with approved := some true, resolved := false }
          else if s ≠ "" then
            { e with approved := some true, resolved := true, matched_canonical_id := some s }
          else { e with approved := some false, ignored := true }
      | none => { e with approved := some false, ignored := true }

/-- `handle_review(item_id)` (`app/routes.py` lines 674-750): look up the
pending review; report "not found or already handled" without touching
anything when there is none. -/
def handle_review (db : List ReviewEntry) (id : Nat) (form : ReviewForm) :
    List ReviewEntry × RouteResponse :=
  match find_pending_idx db id with
  | none => (db, .notFoundOrHandled)
  | some i =>
      match db.get? i with
      | none => (db, .notFoundOrHandled)
      | some e => (db.set i (apply_decision form e), .ok)

/-- `ignore_review_item(item_id)` (`app/routes.py` lines 752-785). -/
def ignore_review_item (db : List ReviewEntry) (id : Nat) :
    List ReviewEntry × RouteResponse :=
  match find_pending_idx db id with
  | none => (db, .notFoundOrHandled)
  | some i =>
      match db.get? i with
      | none => (db, .notFoundOrHandled)
      | some e => (db.set i { e with approved := some false, ignored := true }, .ok)

/-- `batch_save_decisions` (`app/routes.py` lines 787-806): approve every
pending, non-ignored review as a new item. -/
def batch_save_decisions (db : List ReviewEntry) : List ReviewEntry :=
  db.map (fun e =>
    if e.approved == none && e.ignored == false then
      { e with approved := some true, resolved := false }
    else e)

/-- The filter of `batch_approve_high_confidence` (`app/routes.py` lines
818-825): pending, item not ignored, score within the strict band
`[90, auto_resolve_threshold)`, and a suggested external id present. -/
def hc_eligible (ar : ℚ) (e : ReviewEntry) : Bool :=
  e.approved == none && e.ignored == false &&
    decide ((90 : ℚ) ≤ e.rev_score) && decide (e.rev_score < ar) &&
    e.suggested_ext_id != none

/-- The fate of one record under `batch_approve_high_confidence`
(`app/routes.py` lines 808-853): eligible records passing the semantic guard
are approved to their suggested match; eligible records failing it are left
untouched; everything else is untouched.  `none` models the guard raising. -/
def hc_step (ar : ℚ) (e : ReviewEntry) : Option ReviewEntry :=
  if hc_eligible ar e then
    match is_semantically_valid_match e.item_name e.suggested_name e.item_type with
    | some true => some { e with approved := some true, resolved := true,
                                 matched_canonical_id := e.suggested_ext_id }
    | some false => some e
    | none => none
  else some e

/-- Whether the guard rejects an otherwise-eligible record (these are the
records the route reports separately as semantic rejections). -/
def hc_semantic_reject (ar : ℚ) (e : ReviewEntry) : Bool :=
  hc_eligible ar e &&
    is_semantically_valid_match e.item_name e.suggested_name e.item_type == some false

/-- `batch_approve_high_confidence`: the updated table plus the counts the
route reports (approved, rejected-by-semantics). -/
def batch_approve_high_confidence (ar : ℚ) (db : List ReviewEntry) :
    Option (List ReviewEntry × Nat × Nat) :=
  (db.mapM (hc_step ar)).map (fun db2 =>
    (db2,
     (db.filter (fun e => hc_eligible ar e &&
        is_semantically_valid_match e.item_name e.suggested_name e.item_type == some true)).length,
     (db.filter (hc_semantic_reject ar)).length))

/-! ### Concrete fixtures used by witnesses and counterexamples -/

/-- A pending review whose item already carries the suggested canonical id,
exactly as the ETL suggest-for-review branch creates it. -/
def entry_pending_matched : ReviewEntry :=
  ⟨7, "Stevia", some "I9", 88, [], none, "Stevia Leaf", "ingredient", false, false, some "I9"⟩

/-- A review that was already approved (terminal). -/
def entry_handled : ReviewEntry :=
  ⟨5, "Pectin", some "I2", 91, [], some true, "Pectin", "ingredient", true, false, some "I2"⟩

/-- The spec's semantic-veto scenario: scores 92 against a category-mismatched
suggestion, so it is in the high-confidence band but must not be approved. -/
def entry_semantic : ReviewEntry :=
  ⟨9, "Amino B-Complex", some "I5", 92, [], none, "Vitamin B12", "ingredient", false, false,
    some "I5"⟩

/-- `entry_pending_matched` after an approve-as-new decision. -/
def entry_after_new : ReviewEntry :=
  { entry_pending_matched with approved := some true, resolved := false }

/-! ## Theorems -/

lemma pyAbs_nonneg (x : ℚ) : 0 ≤ pyAbs x := by
  unfold pyAbs; split <;> linarith

lemma string_eq_empty_of_length {s : String} (h : s.length = 0) : s = "" := by
  cases s with
  | mk data =>
      cases data with
      | nil => rfl
      | cons c cs => simp [String.length] at h

/-- Shared soundness of the penalty computation: when the strings are not
both empty it returns a score that is nonnegative and (for a nonnegative raw
score) no larger than the raw score. -/
lemma amp_sound (q c : String) (raw : ℚ) (h : max q.length c.length ≠ 0) :
    ∃ s, apply_match_penalties q c raw = some s ∧ 0 ≤ s ∧ (0 ≤ raw → s ≤ raw) := by
  have hp1 : (0 : ℚ) ≤ pyAbs ((q.length : ℚ) - (c.length : ℚ)) /
      ((max q.length c.length : ℕ) : ℚ) * LENGTH_PENALTY_MULTIPLIER := by
    apply mul_nonneg
    · exact div_nonneg (pyAbs_nonneg _) (by positivity)
    · norm_num [LENGTH_PENALTY_MULTIPLIER]
  have hp2 : (0 : ℚ) ≤ min (pyAbs (((pySplit q).length : ℚ) - ((pySplit c).length : ℚ)) *
      WORD_COUNT_PENALTY_MULTIPLIER) 25 := by
    apply le_min
    · exact mul_nonneg (pyAbs_nonneg _) (by norm_num [WORD_COUNT_PENALTY_MULTIPLIER])
    · norm_num
  simp only [apply_match_penalties, if_neg h]
  refine ⟨_, rfl, le_max_left _ _, fun hraw => ?_⟩
  apply max_le hraw
  simp only [DIETARY_TERMS_PENALTY, SPECIAL_CHARS_PENALTY, NUMBERS_PENALTY]
  split_ifs <;> linarith [hp1, hp2]

/-- Claim C10: provided the query and candidate are not both empty,
`apply_match_penalties` is total (the length-penalty divisor is positive),
its result never exceeds the given (nonnegative) raw score, and is never
below 0; when both strings are empty the length-penalty division is a
division by zero. -/
theorem C10_penalties_total_and_bounded (q c : String) (raw : ℚ)
    (h : ¬ (q = "" ∧ c = "")) (h0 : 0 ≤ raw) :
    (∃ s, apply_match_penalties q c raw = some s ∧ 0 ≤ s ∧ s ≤ raw) ∧
    (∀ r : ℚ, apply_match_penalties "" "" r = none) := by
  constructor
  · have hmax : max q.length c.length ≠ 0 := by
      intro hm
      rcases Nat.max_eq_zero_iff.mp hm with ⟨hq, hc⟩
      exact h ⟨string_eq_empty_of_length hq, string_eq_empty_of_length hc⟩
    obtain ⟨s, hs, h1, h2⟩ := amp_sound q c raw hmax
    exact ⟨s, hs, h1, h2 h0⟩
  · intro r
    simp [apply_match_penalties]

/-- Witness for C10 at a concrete input. -/
theorem C10_witness :
    (¬ ("Organic Stevia" = "" ∧ "Stevia" = "")) ∧ ((0 : ℚ) ≤ 70) ∧
    ((∃ s, apply_match_penalties "Organic Stevia" "Stevia" 70 = some s ∧ 0 ≤ s ∧ s ≤ 70) ∧
     (∀ r : ℚ, apply_match_penalties "" "" r = none)) :=
  ⟨by decide, by norm_num,
    C10_penalties_total_and_bounded "Organic Stevia" "Stevia" 70 (by decide) (by norm_num)⟩

/-- Claim C4, counterexample: with both strings empty the top-candidate
penalised score is not a value in `[0, 100]` — the computation raises
(`ZeroDivisionError`), modelled as `none`. -/
theorem C4_counterexample : top_candidate_score "" "" 90 90 90 = none := by
  simp [top_candidate_score, apply_match_penalties]

/-- Claim C4 (amended): for every query/candidate pair that is not both
empty and every raw score in `[0, 100]`, the penalised score of the top
candidate — the penalty rules plus the algorithm-disagreement penalty —
is defined and lies in `[0, 100]`. -/
theorem C4_top_score_bounded (q c : String) (raw ratio_score substr_score : ℚ)
    (h : ¬ (q = "" ∧ c = "")) (h0 : 0 ≤ raw) (h100 : raw ≤ 100) :
    ∃ s, top_candidate_score q c raw ratio_score substr_score = some s ∧ 0 ≤ s ∧ s ≤ 100 := by
  have hmax : max q.length c.length ≠ 0 := by
    intro hm
    rcases Nat.max_eq_zero_iff.mp hm with ⟨hq, hc⟩
    exact h ⟨string_eq_empty_of_length hq, string_eq_empty_of_length hc⟩
  obtain ⟨s, hs, h1, h2⟩ := amp_sound q c raw hmax
  refine ⟨max 0 (disagreement_adjust raw ratio_score substr_score s), ?_, le_max_left _ _, ?_⟩
  · simp [top_candidate_score, hs]
  · apply max_le (le_trans h0 h100)
    have hsr := h2 h0
    unfold disagreement_adjust
    have hpen : ALGORITHM_DISAGREEMENT_PENALTY = 15 := rfl
    split_ifs <;> linarith

/-- Witness for C4 (amended) at a concrete input. -/
theorem C4_witness :
    (¬ ("Vitamin C" = "" ∧ "Vitamin D" = "")) ∧ ((0 : ℚ) ≤ 85) ∧ ((85 : ℚ) ≤ 100) ∧
    (∃ s, top_candidate_score "Vitamin C" "Vitamin D" 85 60 55 = some s ∧ 0 ≤ s ∧ s ≤ 100) :=
  ⟨by decide, by norm_num, by norm_num,
    C4_top_score_bounded "Vitamin C" "Vitamin D" 85 60 55 (by decide) (by norm_num) (by norm_num)⟩

/-- Claim C3, counterexample: raising `auto_resolve_threshold` from 95 to 97
turns the score 96 from `AutoResolved` into `SuggestedForReview`, and
lowering `auto_reject_threshold` from 50 to 45 turns the score 49 from
`AutoRejected` into `SuggestedForReview` — both conversions the claim says
never happen. -/
theorem C3_counterexample :
    classify_score 96 95 50 = Decision.autoResolved ∧
    classify_score 96 97 50 = Decision.suggestedForReview ∧
    classify_score 49 50 50 = Decision.autoRejected ∧
    classify_score 49 50 45 = Decision.suggestedForReview := by
  refine ⟨?_, ?_, ?_, ?_⟩ <;> norm_num [classify_score]

/-- Claim C3 (amended): for a fixed penalised score, *decreasing*
`auto_resolve_threshold` never changes an `AutoResolved` outcome into
`SuggestedForReview` (it stays `AutoResolved`), and *increasing*
`auto_reject_threshold` never changes an `AutoRejected` outcome into
`SuggestedForReview` (it stays `AutoRejected`). -/
theorem C3_threshold_monotonicity (s ar ar2 rej rej2 : ℚ)
    (har : ar2 ≤ ar) (hrej : rej ≤ rej2) :
    (classify_score s ar rej = Decision.autoResolved →
      classify_score s ar2 rej = Decision.autoResolved) ∧
    (classify_score s ar rej = Decision.autoRejected →
      classify_score s ar rej2 = Decision.autoRejected) := by
  unfold classify_score
  constructor
  · intro h
    by_cases h1 : s ≥ ar
    · rw [if_pos (le_trans har h1)]
    · rw [if_neg h1] at h
      by_cases h2 : s ≥ rej <;> simp [h2] at h
  · intro h
    by_cases h1 : s ≥ ar
    · rw [if_pos h1] at h; exact absurd h (by simp)
    · rw [if_neg h1] at h
      by_cases h2 : s ≥ rej
      · rw [if_pos h2] at h; exact absurd h (by simp)
      · have h2' : ¬ s ≥ rej2 := fun hc => h2 (le_trans hrej hc)
        rw [if_neg h1, if_neg h2']

/-- Witness for C3 (amended) at concrete thresholds. -/
theorem C3_witness :
    ((95 : ℚ) ≤ 97) ∧ ((50 : ℚ) ≤ 60) ∧
    ((classify_score 98 97 50 = Decision.autoResolved →
        classify_score 98 95 50 = Decision.autoResolved) ∧
     (classify_score 98 97 50 = Decision.autoRejected →
        classify_score 98 97 60 = Decision.autoRejected)) :=
  ⟨by norm_num, by norm_num,
    C3_threshold_monotonicity 98 97 95 50 60 (by norm_num) (by norm_num)⟩

/-- Claim C5, counterexample: the normalizer is not idempotent.  On
`"vit, c"` the comma blocks the `vit c` variant rule, the comma is then
stripped and the words capitalised to `"Vit C"`; a second pass now sees
`vit c` and rewrites it to `"Vitamin C"`. -/
theorem C5_counterexample :
    normalize_offering_text (normalize_offering_text "vit, c") ≠
      normalize_offering_text "vit, c" := by decide

/-- Claim C5 (amended): the normalizer is a deterministic pure function and
returns empty input unchanged, but it is not idempotent in general
(the counterexample above; here the two passes on `"vit, c"` are pinned
down). -/
theorem C5_normalizer_behaviour :
    normalize_offering_text "" = "" ∧
    normalize_offering_text "vit, c" = "Vit C" ∧
    normalize_offering_text "Vit C" = "Vitamin C" := by
  refine ⟨rfl, by decide, by decide⟩

lemma find_pending_idx_none (db : List ReviewEntry) (id : Nat)
    (h : ∀ e ∈ db, e.item_id = id → e.approved ≠ none) :
    find_pending_idx db id = none := by
  unfold find_pending_idx
  induction db with
  | nil => rfl
  | cons e es ih =>
      have hhead : (e.item_id == id && e.approved == none) = false := by
        by_cases hid : e.item_id = id
        · have hne := h e (List.mem_cons_self e es) hid
          simp [beq_eq_false_iff_ne.mpr hne]
        · simp [beq_eq_false_iff_ne.mpr hid]
      rw [List.findIdx?_cons, hhead]
      simp [ih (fun e2 he2 => h e2 (List.mem_cons_of_mem e he2))]

/-- Claim C7: once a review record is no longer pending, any further
approve/reject/ignore call on its item is a no-op that leaves the whole
table unchanged and reports the non-fatal "not found or already handled"
condition. -/
theorem C7_review_terminality (db : List ReviewEntry) (id : Nat) (form : ReviewForm)
    (h : ∀ e ∈ db, e.item_id = id → e.approved ≠ none) :
    handle_review db id form = (db, RouteResponse.notFoundOrHandled) ∧
    ignore_review_item db id = (db, RouteResponse.notFoundOrHandled) := by
  have hfind := find_pending_idx_none db id h
  constructor
  · unfold handle_review; rw [hfind]
  · unfold ignore_review_item; rw [hfind]

/-- Witness for C7: a second decision on an already-approved review. -/
theorem C7_witness :
    (∀ e ∈ [entry_handled], e.item_id = 5 → e.approved ≠ none) ∧
    (handle_review [entry_handled] 5 ⟨[], some "__new__"⟩ =
        ([entry_handled], RouteResponse.notFoundOrHandled) ∧
     ignore_review_item [entry_handled] 5 =
        ([entry_handled], RouteResponse.notFoundOrHandled)) :=
  ⟨by decide, C7_review_terminality [entry_handled] 5 ⟨[], some "__new__"⟩ (by decide)⟩

/-- Claim C8, counterexample: approve-as-new does not leave the owning
item's `matched_canonical_id` unset.  The suggest-for-review branch of the
ETL already stored the suggested id on the item, and the approve-as-new
branch does not clear it: after the operation it is still `"I9"`. -/
theorem C8_counterexample :
    handle_review [entry_pending_matched] 7 ⟨[], some "__new__"⟩ =
      ([entry_after_new], RouteResponse.ok) ∧
    entry_after_new.matched_canonical_id = some "I9" := by
  constructor
  · decide
  · rfl

/-- Claim C8 (amended): for every pending review record, approve-as-new
(single or batch) sets the decision to approved and the owning item's
`resolved` to false, and leaves `matched_canonical_id` unchanged (for
suggest-band items it therefore remains the earlier suggested id);
downstream sync classifies the item as brand-new from `resolved = false`
alone. -/
theorem C8_approve_as_new (db : List ReviewEntry) (id : Nat) (form : ReviewForm)
    (i : Nat) (e : ReviewEntry)
    (hform : form.canonical_choices = [] ∧ form.single_choice = some "__new__")
    (hidx : find_pending_idx db id = some i) (hget : db.get? i = some e) :
    handle_review db id form =
      (db.set i { e with approved := some true, resolved := false }, RouteResponse.ok) ∧
    ({ e with approved := some true, resolved := false }).matched_canonical_id =
      e.matched_canonical_id ∧
    (∀ (j : Nat) (e2 : ReviewEntry), db[j]? = some e2 → e2.approved = none →
      e2.ignored = false →
      (batch_save_decisions db)[j]? =
        some { e2 with approved := some true, resolved := false }) := by
  obtain ⟨hchoices, hsingle⟩ := hform
  refine ⟨?_, rfl, ?_⟩
  · simp only [handle_review, hidx, hget]
    unfold apply_decision
    rw [hchoices, hsingle]
    simp
  · intro j e2 hj hpending hignored
    unfold batch_save_decisions
    rw [List.getElem?_map, hj]
    simp [hpending, hignored]

/-- Witness for C8 (amended) on a concrete pending record. -/
theorem C8_witness :
    ((⟨[], some "__new__"⟩ : ReviewForm).canonical_choices = [] ∧
      (⟨[], some "__new__"⟩ : ReviewForm).single_choice = some "__new__") ∧
    find_pending_idx [entry_pending_matched] 7 = some 0 ∧
    [entry_pending_matched].get? 0 = some entry_pending_matched ∧
    (handle_review [entry_pending_matched] 7 ⟨[], some "__new__"⟩ =
      ([entry_pending_matched].set 0 { entry_pending_matched with approved := some true, resolved := false }, RouteResponse.ok) ∧
    ({ entry_pending_matched with approved := some true, resolved := false }).matched_canonical_id =
      entry_pending_matched.matched_canonical_id ∧
    (∀ (j : Nat) (e2 : ReviewEntry), [entry_pending_matched][j]? = some e2 →
      e2.approved = none → e2.ignored = false →
      (batch_save_decisions [entry_pending_matched])[j]? =
        some { e2 with approved := some true, resolved := false })) :=
  ⟨⟨rfl, rfl⟩, by decide, by decide,
    C8_approve_as_new [entry_pending_matched] 7 ⟨[], some "__new__"⟩ 0
      entry_pending_matched ⟨rfl, rfl⟩ (by decide) (by decide)⟩

/-- Claim C6: batch high-confidence approval approves exactly the pending,
non-ignored records with a suggested id and score in `[90,
auto_resolve_threshold)` that pass the semantic guard; a record failing the
guard is left untouched (still pending, not ignored) and is what the route
counts as a semantic rejection; and the spec's scenario pair
`"Vitamin B12"` vs `"Amino B-Complex"` is indeed vetoed by the guard. -/
theorem C6_batch_high_confidence (ar : ℚ) (e : ReviewEntry) :
    (hc_eligible ar e = true ↔
      e.approved = none ∧ e.ignored = false ∧ (90 : ℚ) ≤ e.rev_score ∧
      e.rev_score < ar ∧ e.suggested_ext_id ≠ none) ∧
    (hc_eligible ar e = true →
      is_semantically_valid_match e.item_name e.suggested_name e.item_type = some true →
      hc_step ar e = some { e with approved := some true, resolved := true,
                                   matched_canonical_id := e.suggested_ext_id }) ∧
    (hc_eligible ar e = true →
      is_semantically_valid_match e.item_name e.suggested_name e.item_type = some false →
      hc_step ar e = some e ∧ hc_semantic_reject ar e = true) ∧
    (hc_eligible ar e = false → hc_step ar e = some e) ∧
    is_semantically_valid_match "Vitamin B12" "Amino B-Complex" "ingredient" = some false := by
  refine ⟨?_, ?_, ?_, ?_, by decide⟩
  · unfold hc_eligible
    simp only [Bool.and_eq_true, beq_iff_eq, bne_iff_ne, decide_eq_true_eq, ne_eq]
    tauto
  · intro h1 h2
    unfold hc_step
    rw [if_pos h1, h2]
  · intro h1 h2
    constructor
    · unfold hc_step
      rw [if_pos h1, h2]
    · unfold hc_semantic_reject
      rw [h1, h2]
      rfl
  · intro h1
    unfold hc_step
    rw [if_neg (by simp [h1])]

/-- Witness for C6: the scenario record (score 92, suggested
`"Amino B-Complex"` for item `"Vitamin B12"`) is eligible but vetoed, so the
batch step leaves it pending and counts it as a semantic rejection. -/
theorem C6_witness :
    hc_eligible 97 entry_semantic = true ∧
    is_semantically_valid_match entry_semantic.item_name entry_semantic.suggested_name
      entry_semantic.item_type = some false ∧
    (hc_step 97 entry_semantic = some entry_semantic ∧
      hc_semantic_reject 97 entry_semantic = true) :=
  ⟨by decide, by decide,
    (C6_batch_high_confidence 97 entry_semantic).2.2.1 (by decide) (by decide)⟩

lemma collect_alts_length_le (extMap : List (String × String)) (n0 : String) (rej : ℚ) :
    ∀ (l : List (String × ℚ)) (k : Nat), k < 3 → (collect_alts extMap n0 rej l k).length ≤ 3 - k := by
  intro l
  induction l with
  | nil => intro k _; simp [collect_alts]
  | cons p rest ih =>
      obtain ⟨nm, s⟩ := p
      intro k hk
      simp only [collect_alts]
      split_ifs with hc hk3
      · simp only [List.length_cons, List.length_nil]
        omega
      · have := ih (k + 1) (by omega)
        simp only [List.length_cons]
        omega
      · exact ih k hk

lemma collect_alts_name_ne (extMap : List (String × String)) (n0 : String) (rej : ℚ) :
    ∀ (l : List (String × ℚ)) (k : Nat), ∀ a ∈ collect_alts extMap n0 rej l k, a.name ≠ n0 := by
  intro l
  induction l with
  | nil => intro k a ha; simp [collect_alts] at ha
  | cons p rest ih =>
      obtain ⟨nm, s⟩ := p
      intro k a ha
      simp only [collect_alts] at ha
      split_ifs at ha with hc hk3
      · rcases List.mem_singleton.mp ha with rfl
        exact hc.1
      · rcases List.mem_cons.mp ha with rfl | htail
        · exact hc.1
        · exact ih (k + 1) a htail
      · exact ih k a ha

/-- Claim C1: once an item reaches the fuzzy branch, the classifier routes it
by its penalised (best-tracked) score, first match wins: at or above the
auto-resolve threshold the item is resolved with no review; between the two
thresholds the item stays unresolved and a pending review is created whose
suggestion is the top penalised match, carrying at most 3 alternatives none
of which is the suggestion; below the auto-reject threshold the item is
ignored and the review is created pre-rejected with no alternatives. -/
theorem C1_decision_routing
    (q : String) (ratioOf substrOf : String → ℚ) (extracted : List (String × ℚ))
    (extMap : List (String × String)) (ar rej : ℚ) (pm : List (String × ℚ)) (out : ItemOutcome)
    (hpm : penalized_matches_of q ratioOf substrOf extracted = some pm)
    (hout : fuzzy_stage q ratioOf substrOf extracted extMap ar rej = some out) :
    ((best_track pm).2 ≥ ar →
      out.score = some (best_track pm).2 ∧ out.resolved = true ∧ out.ignored = false ∧
      out.review = none ∧
      ∃ n, (best_track pm).1 = some n ∧ out.matched_canonical_id = dictGet extMap n) ∧
    ((best_track pm).2 < ar → (best_track pm).2 ≥ rej →
      out.score = some (best_track pm).2 ∧ out.resolved = false ∧ out.ignored = false ∧
      ∃ n r, (best_track pm).1 = some n ∧ out.matched_canonical_id = dictGet extMap n ∧
        out.review = some r ∧ r.approved = none ∧ r.suggested_name = n ∧
        r.score = (best_track pm).2 ∧ r.alternatives.length ≤ 3 ∧
        ∀ a ∈ r.alternatives, a.name ≠ n) ∧
    ((best_track pm).2 < ar → (best_track pm).2 < rej →
      out.score = none ∧ out.resolved = false ∧ out.ignored = true ∧
      out.matched_canonical_id = none ∧
      ∃ r, out.review = some r ∧ r.approved = some false ∧ r.alternatives = []) := by
  unfold fuzzy_stage at hout
  rw [hpm] at hout
  dsimp only at hout
  by_cases h1 : (best_track pm).2 ≥ ar
  · rw [if_pos h1] at hout
    rcases hb : (best_track pm).1 with _ | n
    · rw [hb] at hout; dsimp only at hout; exact Option.noConfusion hout
    · rw [hb] at hout; dsimp only at hout
      rcases hd : dictGet extMap n with _ | e
      · rw [hd] at hout; dsimp only at hout; exact Option.noConfusion hout
      · rw [hd] at hout; dsimp only at hout
        injection hout with h3
        subst h3
        refine ⟨fun _ => ⟨rfl, rfl, rfl, rfl, n, rfl, hd.symm⟩,
          fun hlt _ => absurd h1 (not_le.mpr hlt),
          fun hlt _ => absurd h1 (not_le.mpr hlt)⟩
  · rw [if_neg h1] at hout
    by_cases h2 : (best_track pm).2 ≥ rej
    · rw [if_pos h2] at hout
      rcases hb : (best_track pm).1 with _ | n
      · rw [hb] at hout; dsimp only at hout; exact Option.noConfusion hout
      · rw [hb] at hout; dsimp only at hout
        rcases hd : dictGet extMap n with _ | e
        · rw [hd] at hout; dsimp only at hout; exact Option.noConfusion hout
        · rw [hd] at hout; dsimp only at hout
          injection hout with h3
          subst h3
          refine ⟨fun hge => absurd hge h1, ?_, fun _ hlt => absurd h2 (not_le.mpr hlt)⟩
          intro _ _
          refine ⟨rfl, rfl, rfl, n, _, rfl, hd.symm, rfl, rfl, rfl, rfl,
            collect_alts_length_le extMap n rej pm 0 (by omega),
            collect_alts_name_ne extMap n rej pm 0⟩
    · rw [if_neg h2] at hout
      injection hout with h3
      subst h3
      exact ⟨fun hge => absurd hge h1, fun _ hge => absurd hge h2,
        fun _ _ => ⟨rfl, rfl, rfl, rfl, _, rfl, rfl, rfl⟩⟩

set_option maxRecDepth 100000 in
/-- Witness for C1: a single extracted candidate `"Agar"` with penalised
score 95 lands in the suggest-for-review band under the default thresholds. -/
theorem C1_witness :
    penalized_matches_of "Agar" (fun _ => 95) (fun _ => 95) [("Agar", 95)] =
      some [("Agar", 95)] ∧
    fuzzy_stage "Agar" (fun _ => 95) (fun _ => 95) [("Agar", 95)] [("Agar", "P7")] 97 50 =
      some ⟨some "P7", some 95, false, false, some ⟨"Agar", some "P7", 95, [], none⟩⟩ ∧
    ((fun pm (out : ItemOutcome) =>
      ((best_track pm).2 ≥ 97 →
        out.score = some (best_track pm).2 ∧ out.resolved = true ∧ out.ignored = false ∧
        out.review = none ∧
        ∃ n, (best_track pm).1 = some n ∧
          out.matched_canonical_id = dictGet [("Agar", "P7")] n) ∧
      ((best_track pm).2 < 97 → (best_track pm).2 ≥ 50 →
        out.score = some (best_track pm).2 ∧ out.resolved = false ∧ out.ignored = false ∧
        ∃ n r, (best_track pm).1 = some n ∧
          out.matched_canonical_id = dictGet [("Agar", "P7")] n ∧
          out.review = some r ∧ r.approved = none ∧ r.suggested_name = n ∧
          r.score = (best_track pm).2 ∧ r.alternatives.length ≤ 3 ∧
          ∀ a ∈ r.alternatives, a.name ≠ n) ∧
      ((best_track pm).2 < 97 → (best_track pm).2 < 50 →
        out.score = none ∧ out.resolved = false ∧ out.ignored = true ∧
        out.matched_canonical_id = none ∧
        ∃ r, out.review = some r ∧ r.approved = some false ∧ r.alternatives = []))
      [("Agar", (95 : ℚ))]
      ⟨some "P7", some 95, false, false, some ⟨"Agar", some "P7", 95, [], none⟩⟩) := by
  have hamp : apply_match_penalties "Agar" "Agar" 95 = some 95 := by
    norm_num [apply_match_penalties, pyAbs, String.length, LENGTH_PENALTY_MULTIPLIER,
      WORD_COUNT_PENALTY_MULTIPLIER]
  have hsc : score_one_match "Agar" "Agar" (fun _ => 95) (fun _ => 95) "Agar" 95 =
      some 95 := by
    simp only [score_one_match, hamp, Option.map_some]
    norm_num [disagreement_adjust, pyAbs, ALGORITHM_DISAGREEMENT_THRESHOLD, max_def]
  have hpm : penalized_matches_of "Agar" (fun _ => 95) (fun _ => 95) [("Agar", 95)] =
      some [("Agar", 95)] := by
    simp [penalized_matches_of, List.mapM.loop, hsc]
  have hbest : best_track [("Agar", (95 : ℚ))] = (some "Agar", 95) := by
    norm_num [best_track]
  have hout : fuzzy_stage "Agar" (fun _ => 95) (fun _ => 95) [("Agar", 95)]
      [("Agar", "P7")] 97 50 =
      some ⟨some "P7", some 95, false, false, some ⟨"Agar", some "P7", 95, [], none⟩⟩ := by
    unfold fuzzy_stage
    rw [hpm]
    norm_num [hbest, dictGet, collect_alts]
  exact ⟨hpm, hout, C1_decision_routing _ _ _ _ _ _ _ _ _ hpm hout⟩

/-- Claim C2, counterexample: the canonical title `"Gelatine"` is in the
pool, but processing the query `"Gelatine".lower()` does not take the
exact-match short-circuit: normalization rewrites `gelatine` to `"Gelatin"`,
whose lowercase form is not a key of the pool, so the item goes down the
fuzzy path and ends suggested-for-review with score 89.25, not auto-resolved
with score 100.  (93 is the raw token-set score; any raw score at most 100
lands below the auto-resolve threshold after the 3.75 length penalty.) -/
theorem C2_counterexample :
    handle_item [("Gelatine", "I1")] (fun _ => 93) (fun _ => 93) [("Gelatine", 93)] 97 50
      (pyLower "Gelatine") =
      some ⟨some "I1", some 89.25, false, false,
        some ⟨"Gelatine", some "I1", 89.25, [], none⟩⟩ := by
  have hkey : sanitize_string (normalize_offering_text (pyLower "Gelatine")) = "Gelatin" := by
    decide
  have hlook : lowerLookup [("Gelatine", "I1")] (pyLower "Gelatin") = none := by decide
  have hsc : score_one_match "Gelatin" "Gelatine" (fun _ => 93) (fun _ => 93) "Gelatine" 93 =
      some 89.25 := by
    norm_num +decide [score_one_match, apply_match_penalties, disagreement_adjust, pyAbs,
      pySplit, pySplitAux, pyIsSpace, dietary_terms, containsSubstr, containsSubAux, pyLower,
      lowerChar, special_char_set, String.length, Char.isDigit, LENGTH_PENALTY_MULTIPLIER,
      WORD_COUNT_PENALTY_MULTIPLIER, ALGORITHM_DISAGREEMENT_THRESHOLD,
      ALGORITHM_DISAGREEMENT_PENALTY, max_def, min_def]
  have hpm : penalized_matches_of "Gelatin" (fun _ => 93) (fun _ => 93) [("Gelatine", 93)] =
      some [("Gelatine", 89.25)] := by
    simp [penalized_matches_of, List.mapM.loop, hsc]
  have hbest : best_track [("Gelatine", (89.25 : ℚ))] = (some "Gelatine", 89.25) := by
    norm_num [best_track]
  have hfz : fuzzy_stage "Gelatin" (fun _ => 93) (fun _ => 93) [("Gelatine", 93)]
      [("Gelatine", "I1")] 97 50 =
      some ⟨some "I1", some 89.25, false, false,
        some ⟨"Gelatine", some "I1", 89.25, [], none⟩⟩ := by
    unfold fuzzy_stage
    rw [hpm]
    dsimp only
    rw [hbest]
    norm_num +decide [dictGet, collect_alts]
  simp only [handle_item, hkey, hlook]
  exact hfz

/-- Claim C2 (amended): for any canonical title `T` whose
normalize-then-sanitize image lower-compares equal to `T.lower()`, and whose
lowercase title is bound (last wins on case-insensitive duplicates) to a
non-empty id in the pool, processing the query `T.lower()` takes the
exact-match short-circuit before fuzzy retrieval — the outcome does not
depend on the retrieval results at all — and yields an auto-resolved item
with score 100 matched to that id. -/
theorem C2_exact_match_short_circuit (pool : List (String × String))
    (ratioOf substrOf : String → ℚ) (extracted : List (String × ℚ)) (ar rej : ℚ)
    (T id : String)
    (hproc : pyLower (sanitize_string (normalize_offering_text (pyLower T))) = pyLower T)
    (hlook : lowerLookup pool (pyLower T) = some id) (hid : id ≠ "") :
    handle_item pool ratioOf substrOf extracted ar rej (pyLower T) =
      some ⟨some id, some 100, true, false, none⟩ := by
  simp only [handle_item, hproc, hlook]
  rw [if_neg hid]

/-- Witness for C2 (amended): the pool title `"Omega-3"`, queried as
`"omega-3"`, is a fixpoint of processing and auto-resolves at score 100. -/
theorem C2_witness :
    pyLower (sanitize_string (normalize_offering_text (pyLower "Omega-3"))) =
      pyLower "Omega-3" ∧
    lowerLookup [("Omega-3", "P9")] (pyLower "Omega-3") = some "P9" ∧
    "P9" ≠ "" ∧
    handle_item [("Omega-3", "P9")] (fun _ => 0) (fun _ => 0) [] 97 50 (pyLower "Omega-3") =
      some ⟨some "P9", some 100, true, false, none⟩ :=
  ⟨by decide, by decide, by decide,
    C2_exact_match_short_circuit [("Omega-3", "P9")] (fun _ => 0) (fun _ => 0) [] 97 50
      "Omega-3" "P9" (by decide) (by decide) (by decide)⟩

/-- Claim C9, counterexample: with the canonical pool unavailable (empty
lists), an extracted item is not routed to pending human review — it is
auto-rejected: `ignored = true` and its review record is created with the
decision pre-set to rejected (`approved = some false`), so it is excluded
from every pending-review query. -/
theorem C9_counterexample :
    handle_item [] (fun _ => 0) (fun _ => 0) [] 97 50 "Vitamin C" =
      some ⟨none, none, false, true, some ⟨"Vitamin C", none, 0, [], some false⟩⟩ := by
  have hkey : sanitize_string (normalize_offering_text "Vitamin C") = "Vitamin C" := by decide
  simp only [handle_item, hkey]
  have h1 : ¬ ((0 : ℚ) ≥ 97) := by norm_num
  have h2 : ¬ ((0 : ℚ) ≥ 50) := by norm_num
  simp [fuzzy_stage, penalized_matches_of, best_track, lowerLookup, h1, h2]

/-- Claim C9 (amended): when the canonical pool source is unavailable the
run does not abort — the pool is the empty list and retrieval over it
returns no candidates — and every extracted item is then auto-rejected with
score 0: `ignored = true`, no canonical link, and an audit review record
pre-set to rejected.  Items are not silently dropped, but they are not
pending human review either. -/
theorem C9_empty_pool_degraded (q : String) (ratioOf substrOf : String → ℚ) (ar rej : ℚ)
    (har : 0 < ar) (hrej : 0 < rej) :
    handle_item [] ratioOf substrOf [] ar rej q =
      some ⟨none, none, false, true,
        some ⟨sanitize_string (normalize_offering_text q), none, 0, [], some false⟩⟩ := by
  have h1 : ¬ ((0 : ℚ) ≥ ar) := not_le.mpr har
  have h2 : ¬ ((0 : ℚ) ≥ rej) := not_le.mpr hrej
  simp [handle_item, fuzzy_stage, penalized_matches_of, best_track, lowerLookup, h1, h2]

/-- Witness for C9 (amended) at the default thresholds. -/
theorem C9_witness :
    ((0 : ℚ) < 97) ∧ ((0 : ℚ) < 50) ∧
    handle_item [] (fun _ => 0) (fun _ => 0) [] 97 50 "Stevia" =
      some ⟨none, none, false, true,
        some ⟨sanitize_string (normalize_offering_text "Stevia"), none, 0, [], some false⟩⟩ :=
  ⟨by norm_num, by norm_num,
    C9_empty_pool_degraded "Stevia" (fun _ => 0) (fun _ => 0) 97 50 (by norm_num) (by norm_num)⟩

end PYP
